import Mathlib

/-!
Shallow embedding of `src/core/input_file.ts` (the `InputFile` core of the
repository): the source normalizer `preprocess`, the filename inference
`guessFilename`, the single-use stream producer (the async iterator of
`InputFile`), the `ResponseError` type and the `fetchFile` helper.

Modelling conventions:
* Byte chunks are `List Nat`; an async iterable of chunks is a `List` of chunks.
* `async`/`await` is collapsed: a resolved promise is its value.
* WHATWG `URL` objects are a record of `protocol` (scheme plus the trailing
  colon, as the real `protocol` getter returns), `hostname` and `pathname`;
  `new URL(s)` is the fallible `parseURL`, restricted to the shapes the code
  meets (special schemes with an authority, and opaque-path schemes such as
  `data:`).
* External I/O (network fetch, local file open, invoking a lazy producer
  closure) is an oracle `Env`; every performed operation is recorded in a
  trace, so "performs no network fetch" and "fails before any I/O" are
  statements about the trace.  A lazy producer closure may be stateful, so the
  oracle maps the invocation index to the produced iterable and the number of
  invocations so far is threaded through reads.
* Plain JS objects may carry several of the fields `base64`, `readable`,
  `url`, `path` at once; the `FileInput.obj` variant keeps all four optional
  so that the order of the `in`-checks of `preprocess` is observable.
-/

deriving instance DecidableEq for Except

namespace InputFileSpec

/-- A binary chunk (the contents of one `Uint8Array`). -/
abbrev Chunk := List Nat

/-- A WHATWG `URL` object, restricted to the components the code reads.
`protocol` includes the trailing colon, exactly as the real getter does. -/
structure URL where
  protocol : String
  hostname : String
  pathname : String
deriving DecidableEq, Repr

/-- A fetch `Response`: `body` is `none` when the body is `null`. -/
structure Response where
  ok : Bool
  status : Nat
  statusText : String
  url : String
  body : Option (List Chunk)
deriving DecidableEq, Repr

/-- Is `c` allowed in a URL scheme after the first character? -/
def isSchemeChar (c : Char) : Bool :=
  c.isAlphanum || c = '+' || c = '-' || c = '.'

/-- The schemes the WHATWG standard calls special (they take an authority). -/
def specialSchemes : List String := ["http", "https", "ws", "wss", "ftp", "file"]

/-- `node:path` `basename` (posix): drop trailing slashes, then keep the part
after the last remaining slash. -/
def basename (p : String) : String :=
  let rcs := (p.toList.reverse.dropWhile (fun c => c = '/'))
  String.mk ((rcs.takeWhile (fun c => c ≠ '/')).reverse)

/-- `new URL(s)`: parse a URL string, `none` when the constructor throws.
Restricted model: a special scheme needs `//`, an authority (which may be
empty only for `file:`) and gets a path starting with `/`; any other scheme
takes the whole remainder as an opaque path, as `data:` URLs do. -/
def parseURL (s : String) : Option URL :=
  let cs := s.toList
  match cs.findIdx? (fun c => c = ':') with
  | none => none
  | some i =>
    match cs.take i with
    | [] => none
    | c :: rest =>
      if c.isAlpha ∧ (c :: rest).all isSchemeChar then
        let scheme := String.mk ((c :: rest).map Char.toLower)
        let tail := cs.drop (i + 1)
        if scheme ∈ specialSchemes then
          match tail with
          | '/' :: '/' :: r =>
            let auth := r.takeWhile (fun c => c ≠ '/')
            let path := r.dropWhile (fun c => c ≠ '/')
            if scheme ≠ "file" ∧ auth = [] then none
            else some { protocol := scheme ++ ":", hostname := String.mk auth,
                        pathname := if path = [] then "/" else String.mk path }
          | _ => none
        else
          some { protocol := scheme ++ ":", hostname := "",
                 pathname := String.mk tail }
      else none

/-- The constructor input union of `InputFile`.  A plain object (`obj`) may
carry any subset of the fields `base64`, `readable`, `url`, `path`, so the
shape checks of `preprocess` keep their order.  `file` is a `File` (a `Blob`
with a `name`); both expose a `stream()` method. -/
inductive FileInput where
  | obj (base64 : Option String) (readable : Option (List Chunk))
        (url : Option String) (path : Option String)
  | url (u : URL)
  | blob (content : List Chunk)
  | file (name : String) (content : List Chunk)
  | response (r : Response)
  | bytes (b : Chunk)
  | iterable (chunks : List Chunk)
  | lazy
deriving DecidableEq, Repr

/-- `"base64" in data` together with the field's value. -/
def hasBase64 : FileInput → Option String
  | .obj b _ _ _ => b
  | _ => none

/-- `"readable" in data` together with the field's value. -/
def hasReadable : FileInput → Option (List Chunk)
  | .obj _ r _ _ => r
  | _ => none

/-- `data instanceof Response`. -/
def asResponse : FileInput → Option Response
  | .response r => some r
  | _ => none

/-- `"url" in data` together with the field's value.  A `Response` does have
a `url` property, which is why the `instanceof Response` check must come
first in `preprocess`. -/
def hasUrl : FileInput → Option String
  | .obj _ _ u _ => u
  | .response r => some r.url
  | _ => none

/-- The canonical representation stored in `this.fileData`.  `obj` is a
passed-through plain object (its only possibly relevant field is `path`);
`iterable` covers both adopted `readable` values and generic async
iterables; `lazy` is a zero-argument producer closure. -/
inductive FileData where
  | obj (path : Option String)
  | url (u : URL)
  | blob (content : List Chunk)
  | file (name : String) (content : List Chunk)
  | response (r : Response)
  | bytes (b : Chunk)
  | iterable (chunks : List Chunk)
  | lazy
deriving DecidableEq, Repr

/-- Errors thrown synchronously by the `InputFile` constructor: the only
source is `new URL(...)` throwing on an unparsable string. -/
inductive ConstructError where
  | invalidURL (s : String)
deriving DecidableEq, Repr

/-- `preprocess(data)`: the source normalizer, its checks applied in the
source's order with the first match winning. -/
def preprocess (data : FileInput) : Except ConstructError FileData :=
  match hasBase64 data with
  | some s =>
    match parseURL ("data:;base64," ++ s) with
    | some u => .ok (.url u)
    | none => .error (.invalidURL ("data:;base64," ++ s))
  | none =>
  match hasReadable data with
  | some chunks => .ok (.iterable chunks)
  | none =>
  match asResponse data with
  | some r => .ok (.response r)
  | none =>
  match hasUrl data with
  | some s =>
    match parseURL s with
    | some u => .ok (.url u)
    | none => .error (.invalidURL s)
  | none =>
  match data with
  | .obj _ _ _ p => .ok (.obj p)
  | .url u => .ok (.url u)
  | .blob c => .ok (.blob c)
  | .file n c => .ok (.file n c)
  | .bytes b => .ok (.bytes b)
  | .iterable cs => .ok (.iterable cs)
  | .lazy => .ok .lazy
  | .response r => .ok (.response r)

/-- The URL part of `guessFilename`: non-root pathname with a non-empty
basename wins, otherwise the hostname's basename. -/
def urlFilename (u : URL) : Option String :=
  if u.pathname ≠ "/" then
    let f := basename u.pathname
    if f ≠ "" then some f else some (basename u.hostname)
  else some (basename u.hostname)

/-- `guessFilename()`: filename inference over the canonical representation.
It can throw, because a `Response` with a non-empty `url` is upgraded via
`new URL(file.url)`. -/
def guessFilename : FileData → Except ConstructError (Option String)
  | .obj (some p) => .ok (some (basename p))
  | .obj none => .ok none
  | .response r =>
    if r.url ≠ "" then
      match parseURL r.url with
      | some u => .ok (urlFilename u)
      | none => .error (.invalidURL r.url)
    else .ok none
  | .file n _ => .ok (some n)
  | .blob _ => .ok none
  | .url u => .ok (urlFilename u)
  | .bytes _ => .ok none
  | .iterable _ => .ok none
  | .lazy => .ok none

/-- The state of an `InputFile` instance after construction. -/
structure InputFile where
  fileData : FileData
  name : Option String
  consumed : Bool
deriving DecidableEq, Repr

/-- The `InputFile` constructor: normalize, then infer the name unless one
was supplied; `consumed` starts `false`. -/
def construct (file : FileInput) (filename : Option String) :
    Except ConstructError InputFile := do
  let data ← preprocess file
  let name ← match filename with
    | some n => pure (some n)
    | none => guessFilename data
  pure { fileData := data, name := name, consumed := false }

/-- The `ResponseError` thrown on a missing or failed response body. -/
structure ResponseError where
  message : String
  error_code : Nat
  response : Response
deriving DecidableEq, Repr

/-- The `ResponseError` constructor: status text, or a no-body note when the
body is `null`, plus the originating URL when non-empty. -/
def ResponseError.ofResponse (r : Response) : ResponseError :=
  let m := if r.body.isSome then r.statusText else "No response body"
  let m := if r.url ≠ "" then m ++ " from " ++ r.url else m
  { message := m, error_code := r.status, response := r }

/-- Errors the stream producer can throw: the reuse `TypeError`, a
`ResponseError`, or the `assertNever` structural `TypeError`. -/
inductive ReadError where
  | reuse
  | responseError (e : ResponseError)
  | unexpectedShape
deriving DecidableEq, Repr

/-- One recorded external I/O operation. -/
inductive Effect where
  | fetch (u : URL)
  | openFile (path : String)
  | invokeLazy (n : Nat)
deriving DecidableEq, Repr

/-- The external world: results of a network fetch, of opening a local path
(`readFile`), and of the n-th invocation of the lazy producer closure. -/
structure Env where
  fetch : URL → Response
  readFile : String → List Chunk
  lazyInvoke : Nat → List Chunk

/-- `fetchFile(url)`: the file-scheme check, then a network fetch; the
result together with the I/O performed.  Note the source compares
`url.protocol === "file"`, while the `protocol` getter yields the scheme
with a trailing colon. -/
def fetchFile (u : URL) (env : Env) :
    Except ReadError (List Chunk) × List Effect :=
  if u.protocol = "file" then
    (.ok (env.readFile u.pathname), [.openFile u.pathname])
  else
    let r := env.fetch u
    if ¬r.ok ∨ r.body = none then
      (.error (.responseError (.ofResponse r)), [.fetch u])
    else
      (.ok (r.body.getD []), [.fetch u])

/-- The outcome of one read: the chunks or the error, the instance's
`consumed` flag afterwards, the lazy-producer invocation count afterwards,
and the I/O performed. -/
structure ReadResult where
  result : Except ReadError (List Chunk)
  consumed : Bool
  calls : Nat
  trace : List Effect
deriving Repr

/-- One run of the async iterator of `InputFile` over the stored canonical
representation, threading the `consumed` flag and the lazy invocation
count.  Branches in the source's order: consumed check, function,
`Uint8Array`, `"stream" in data`, `Symbol.asyncIterator in data`,
`"path" in data`, `Response`, `URL`, `assertNever`. -/
def read (d : FileData) (consumed : Bool) (calls : Nat) (env : Env) :
    ReadResult :=
  if consumed then
    { result := .error .reuse, consumed := consumed, calls := calls, trace := [] }
  else
    match d with
    | .lazy =>
      { result := .ok (env.lazyInvoke calls), consumed := consumed,
        calls := calls + 1, trace := [.invokeLazy calls] }
    | .bytes b =>
      { result := .ok [b], consumed := consumed, calls := calls, trace := [] }
    | .blob c =>
      { result := .ok c, consumed := consumed, calls := calls, trace := [] }
    | .file _ c =>
      { result := .ok c, consumed := consumed, calls := calls, trace := [] }
    | .iterable cs =>
      { result := .ok cs, consumed := true, calls := calls, trace := [] }
    | .obj (some p) =>
      { result := .ok (env.readFile p), consumed := consumed, calls := calls,
        trace := [.openFile p] }
    | .obj none =>
      { result := .error .unexpectedShape, consumed := consumed,
        calls := calls, trace := [] }
    | .response r =>
      match r.body with
      | none =>
        { result := .error (.responseError (.ofResponse r)),
          consumed := consumed, calls := calls, trace := [] }
      | some chunks =>
        { result := .ok chunks, consumed := true, calls := calls, trace := [] }
    | .url u =>
      { result := (fetchFile u env).1, consumed := consumed, calls := calls,
        trace := (fetchFile u env).2 }

/-- The canonical variants whose read marks the instance consumed. -/
def setsConsumed : FileData → Bool
  | .iterable _ => true
  | .response _ => true
  | _ => false

/-- A concrete environment used to instantiate universally quantified
statements: every fetch yields a bodyless 404 and every file is empty. -/
def trivialEnv : Env where
  fetch := fun _ =>
    { ok := false, status := 404, statusText := "Not Found", url := "",
      body := none }
  readFile := fun _ => []
  lazyInvoke := fun _ => []

/-- Parsing a `data:;base64,` URL never fails: the scheme is valid and the
remainder becomes the opaque path. -/
theorem parseURL_dataBase64 (s : String) :
    parseURL ("data:;base64," ++ s) = some ⟨"data:", "", ";base64," ++ s⟩ := by
  cases s with
  | mk data =>
    show parseURL
        ⟨'d' :: 'a' :: 't' :: 'a' :: ':' :: ';' :: 'b' :: 'a' :: 's' ::
          'e' :: '6' :: '4' :: ',' :: data⟩
      = _
    simp [parseURL, List.findIdx?, isSchemeChar]
    exact ⟨by decide, rfl⟩

/-- `basename` of a string without slashes is the string itself. -/
theorem basename_no_slash (s : String) (h : '/' ∉ s.data) : basename s = s := by
  cases s with
  | mk data =>
    have hmem : ∀ c ∈ data.reverse, c ≠ '/' := by
      intro c hc hceq
      exact h (hceq ▸ (List.mem_reverse.mp hc))
    simp only [basename, String.toList]
    rw [List.dropWhile_eq_self_iff.mpr, List.takeWhile_eq_self_iff.mpr]
    · simp
    · intro c hc
      simpa using hmem c hc
    · intro hl
      simpa using hmem _ (List.get_mem _ _ hl)

/-- Away from the dead `file` branch, `fetchFile` always records exactly one
network fetch. -/
theorem fetchFile_trace (u : URL) (env : Env) (h : u.protocol ≠ "file") :
    (fetchFile u env).2 = [.fetch u] := by
  simp only [fetchFile, if_neg h]
  split <;> rfl

/-- Claim C7: a `Uint8Array`-backed `InputFile` yields exactly one chunk —
the buffer itself — then terminates, performing no I/O and leaving
`consumed` false; with no explicit filename the constructed instance has no
name. -/
theorem bytes_read_single_chunk (b : Chunk) (env : Env) (n : Nat) :
    read (.bytes b) false n env =
      { result := .ok [b], consumed := false, calls := n, trace := [] } ∧
    construct (.bytes b) none =
      .ok { fileData := .bytes b, name := none, consumed := false } :=
  ⟨rfl, rfl⟩

/-- Claim C6: a `Lazy`-backed `InputFile` can be read twice with no reuse
error: each read leaves `consumed` false and performs a fresh invocation of
the producer closure (invocation indices `n` and `n + 1`), draining the
iterable that invocation returns. -/
theorem lazy_read_twice (env : Env) (n : Nat) :
    read .lazy false n env =
      { result := .ok (env.lazyInvoke n), consumed := false, calls := n + 1,
        trace := [.invokeLazy n] } ∧
    read .lazy (read .lazy false n env).consumed (read .lazy false n env).calls
        env =
      { result := .ok (env.lazyInvoke (n + 1)), consumed := false,
        calls := n + 2, trace := [.invokeLazy (n + 1)] } :=
  ⟨rfl, rfl⟩

/-- Claim C8: `preprocess` applies its checks in the source's fixed order,
first match winning: a `base64` field wins over every other field and
becomes a `data:;base64,` URL; a `readable` field is adopted next; a
`Response` is kept as-is (even though it also carries a `url` property); a
`url` field becomes a URL object; everything else passes through unchanged.
The definition of `preprocess` takes no `Env` and records no trace, so the
classification performs no I/O. -/
theorem preprocess_first_match_wins (s : String) (r0 : Option (List Chunk))
    (u0 p0 : Option String) (cs chunks : List Chunk) (r : Response) (u : URL)
    (b : Chunk) (m : String) (c : List Chunk) :
    preprocess (.obj (some s) r0 u0 p0) =
      .ok (.url ⟨"data:", "", ";base64," ++ s⟩) ∧
    preprocess (.obj none (some cs) u0 p0) = .ok (.iterable cs) ∧
    (preprocess (.response r) = .ok (.response r) ∧
      hasUrl (.response r) = some r.url) ∧
    preprocess (.obj none none (some s) p0) =
      (match parseURL s with
       | some w => .ok (.url w)
       | none => .error (.invalidURL s)) ∧
    preprocess (.obj none none none p0) = .ok (.obj p0) ∧
    preprocess (.url u) = .ok (.url u) ∧
    preprocess (.bytes b) = .ok (.bytes b) ∧
    preprocess (.iterable chunks) = .ok (.iterable chunks) ∧
    preprocess (.blob c) = .ok (.blob c) ∧
    preprocess (.file m c) = .ok (.file m c) ∧
    preprocess .lazy = .ok .lazy := by
  refine ⟨?_, rfl, ⟨rfl, rfl⟩, rfl, rfl, rfl, rfl, rfl, rfl, rfl, rfl⟩
  simp [preprocess, hasBase64, parseURL_dataBase64]

/-- Claim C1 (code bug): for a `file:` URL the `protocol` getter yields
`"file:"` with the colon, but `fetchFile` compares it against `"file"`, so
the local-file delegation branch never fires: reading a `RemoteUrl` with the
local-file scheme records a network fetch and never opens the local path. -/
theorem file_url_read_fetches (env : Env) (n : Nat) :
    parseURL "file:///tmp/data.bin" = some ⟨"file:", "", "/tmp/data.bin"⟩ ∧
    (read (.url ⟨"file:", "", "/tmp/data.bin"⟩) false n env).trace =
      [.fetch ⟨"file:", "", "/tmp/data.bin"⟩] ∧
    Effect.openFile "/tmp/data.bin" ∉
      (read (.url ⟨"file:", "", "/tmp/data.bin"⟩) false n env).trace := by
  have ht : (read (.url ⟨"file:", "", "/tmp/data.bin"⟩) false n env).trace =
      [.fetch ⟨"file:", "", "/tmp/data.bin"⟩] := by
    show (fetchFile ⟨"file:", "", "/tmp/data.bin"⟩ env).2 = _
    exact fetchFile_trace _ _ (by decide)
  refine ⟨by decide, ht, ?_⟩
  rw [ht]
  simp

/-- Claim C10: an input `{ url: s }` with an unparsable `s` makes the
constructor itself fail synchronously — `new URL(s)` throws inside the
normalizer — so the failure happens at construction, before any read. -/
theorem invalid_url_fails_at_construction (s : String) (fn : Option String)
    (h : parseURL s = none) :
    preprocess (.obj none none (some s) none) = .error (.invalidURL s) ∧
    construct (.obj none none (some s) none) fn = .error (.invalidURL s) := by
  have hp : preprocess (.obj none none (some s) none) =
      .error (.invalidURL s) := by
    simp [preprocess, hasBase64, hasReadable, asResponse, hasUrl, h]
  exact ⟨hp, by simp only [construct, hp]; rfl⟩

/-- Witness for C10 at the concrete unparsable string `"not a url"`. -/
theorem invalid_url_fails_at_construction_witness :
    parseURL "not a url" = none ∧
    construct (.obj none none (some "not a url") none) none =
      .error (.invalidURL "not a url") :=
  ⟨by decide,
    (invalid_url_fails_at_construction "not a url" none (by decide)).2⟩

/-- Claim C2: for a `{ readable }` input (adopted as the iterable canonical
variant), a `Response` with a body, and a generic async iterable, the first
read succeeds and marks the instance consumed, and a read of a consumed
instance fails with the reuse `TypeError` with an empty I/O trace — before
any I/O. -/
theorem single_use_second_read_reuse (env : Env) (cs : List Chunk)
    (r : Response) (bs : List Chunk) (n : Nat) (hbody : r.body = some bs) :
    preprocess (.obj none (some cs) none none) = .ok (.iterable cs) ∧
    read (.iterable cs) false n env =
      { result := .ok cs, consumed := true, calls := n, trace := [] } ∧
    read (.response r) false n env =
      { result := .ok bs, consumed := true, calls := n, trace := [] } ∧
    read (.iterable cs) true n env =
      { result := .error .reuse, consumed := true, calls := n, trace := [] } ∧
    read (.response r) true n env =
      { result := .error .reuse, consumed := true, calls := n, trace := [] } := by
  refine ⟨rfl, rfl, ?_, rfl, rfl⟩
  simp [read, hbody]

/-- Witness for C2 at a concrete response carrying one chunk. -/
theorem single_use_second_read_reuse_witness :
    (Response.mk true 200 "OK" "" (some [[1]])).body = some [[1]] ∧
    read (.response (Response.mk true 200 "OK" "" (some [[1]]))) true 0
        trivialEnv =
      { result := .error .reuse, consumed := true, calls := 0, trace := [] } :=
  ⟨rfl, (single_use_second_read_reuse trivialEnv [[0]]
      (Response.mk true 200 "OK" "" (some [[1]])) [[1]] 0 rfl).2.2.2.2⟩

/-- Claim C3: a `Response`-backed read with a `null` body, and a `RemoteUrl`
read whose fetch is not ok or has no body, fail with a `ResponseError`
whose `error_code` is the response's status and whose message combines the
status text (or the no-body note) with the originating URL when non-empty. -/
theorem response_error_contents (env : Env) (r : Response) (u : URL) (n : Nat)
    (hbody : r.body = none) (hu : u.protocol ≠ "file")
    (hfail : ¬(env.fetch u).ok ∨ (env.fetch u).body = none) :
    (read (.response r) false n env).result =
      .error (.responseError
        { message :=
            if r.url ≠ "" then "No response body" ++ " from " ++ r.url
            else "No response body",
          error_code := r.status, response := r }) ∧
    (read (.url u) false n env).result =
      .error (.responseError
        { message :=
            if (env.fetch u).url ≠ "" then
              (if (env.fetch u).body.isSome then (env.fetch u).statusText
               else "No response body") ++ " from " ++ (env.fetch u).url
            else
              (if (env.fetch u).body.isSome then (env.fetch u).statusText
               else "No response body"),
          error_code := (env.fetch u).status, response := env.fetch u }) := by
  constructor
  · simp [read, hbody, ResponseError.ofResponse]
  · show (fetchFile u env).1 = _
    simp only [fetchFile, if_neg hu, if_pos hfail]
    simp [ResponseError.ofResponse]

/-- Witness for C3: a bodyless 404 response with a known URL, read against
the trivial environment (whose fetches fail with a bodyless 404). -/
theorem response_error_contents_witness :
    (Response.mk false 404 "Not Found" "https://example.com/a" none).body =
      none ∧
    (URL.mk "https:" "example.com" "/a").protocol ≠ "file" ∧
    (¬(trivialEnv.fetch ⟨"https:", "example.com", "/a"⟩).ok ∨
      (trivialEnv.fetch ⟨"https:", "example.com", "/a"⟩).body = none) ∧
    (read
        (.response (Response.mk false 404 "Not Found" "https://example.com/a"
          none)) false 0 trivialEnv).result =
      .error (.responseError
        { message :=
            if ("https://example.com/a" : String) ≠ "" then
              "No response body" ++ " from " ++ "https://example.com/a"
            else "No response body",
          error_code := 404,
          response :=
            Response.mk false 404 "Not Found" "https://example.com/a" none }) :=
  ⟨rfl, by decide, Or.inl (by decide),
    (response_error_contents trivialEnv
      (Response.mk false 404 "Not Found" "https://example.com/a" none)
      ⟨"https:", "example.com", "/a"⟩ 0 rfl (by decide)
      (Or.inl (by decide))).1⟩

/-- Bind on a successful `Except` computation applies the continuation. -/
theorem exceptBind_ok {ε α β : Type} (a : α) (f : α → Except ε β) :
    (Except.ok a >>= f) = f a := rfl

/-- Bind on a failed `Except` computation propagates the error. -/
theorem exceptBind_error {ε α β : Type} (e : ε) (f : α → Except ε β) :
    ((Except.error e : Except ε α) >>= f) = Except.error e := rfl

/-- Helper for Claim C4: a successfully constructed instance starts with
`consumed = false`. -/
theorem construct_consumed_false (input : FileInput) (fn : Option String)
    (m : InputFile) (h : construct input fn = .ok m) : m.consumed = false := by
  unfold construct at h
  cases hp : preprocess input with
  | error e =>
    rw [hp, exceptBind_error] at h
    cases h
  | ok data =>
    rw [hp, exceptBind_ok] at h
    cases fn with
    | some nm =>
      replace h : Except.ok (InputFile.mk data (some nm) false) =
          Except.ok m := h
      injection h with h
      rw [← h]
    | none =>
      replace h : (guessFilename data >>= fun name =>
          (pure { fileData := data, name := name, consumed := false } :
            Except ConstructError InputFile)) = Except.ok m := h
      cases hg : guessFilename data with
      | error e =>
        rw [hg, exceptBind_error] at h
        cases h
      | ok nm =>
        rw [hg, exceptBind_ok] at h
        replace h : Except.ok (InputFile.mk data nm false) = Except.ok m := h
        injection h with h
        rw [← h]

/-- Claim C4: `consumed` starts `false` at construction, a read can only
raise it (never lower it), and a read raises it only for the single-use
canonical variants (generic iterable — which includes adopted `readable`
values — and `Response`); reads of all other variants leave the flag
unchanged. -/
theorem consumed_monotone (input : FileInput) (fn : Option String)
    (m : InputFile) (d : FileData) (c : Bool) (n : Nat) (env : Env)
    (hc : construct input fn = .ok m) :
    m.consumed = false ∧
    (c = true → (read d c n env).consumed = true) ∧
    ((read d c n env).consumed = true → c = true ∨ setsConsumed d = true) ∧
    (setsConsumed d = false → (read d c n env).consumed = c) := by
  refine ⟨construct_consumed_false input fn m hc, ?_, ?_, ?_⟩
  · intro hcc
    subst hcc
    rfl
  · intro hread
    cases c with
    | true => exact Or.inl rfl
    | false =>
      refine Or.inr ?_
      cases d with
      | obj p => cases p <;> simp [read] at hread
      | url u => simp [read] at hread
      | blob c => simp [read] at hread
      | file nm c => simp [read] at hread
      | bytes b => simp [read] at hread
      | lazy => simp [read] at hread
      | iterable cs => rfl
      | response r =>
        cases hb : r.body with
        | none => simp [read, hb] at hread
        | some chunks => rfl
  · intro hset
    cases c with
    | true => rfl
    | false =>
      cases d with
      | iterable cs => simp [setsConsumed] at hset
      | response r => simp [setsConsumed] at hset
      | obj p => cases p <;> rfl
      | url u => rfl
      | blob c => rfl
      | file nm c => rfl
      | bytes b => rfl
      | lazy => rfl

/-- Witness for C4 at a concrete constructed instance. -/
theorem consumed_monotone_witness :
    construct (.bytes []) none =
      .ok { fileData := .bytes [], name := none, consumed := false } ∧
    ({ fileData := .bytes [], name := none, consumed := false } :
        InputFile).consumed = false :=
  ⟨rfl, (consumed_monotone (.bytes []) none
      { fileData := .bytes [], name := none, consumed := false }
      (.iterable []) false 0 trivialEnv rfl).1⟩

/-- Claim C5: filename inference precedence — a `path` field yields the
path's basename; a `File`'s `name` is used next; non-URL values yield no
name; a URL with non-root pathname and non-empty basename yields that
basename; otherwise the URL's hostname is used.  Includes the spec's two
concrete examples. -/
theorem guessFilename_precedence (p nm : String) (c cs : List Chunk)
    (b : Chunk) (v w : URL)
    (hv1 : v.pathname ≠ "/") (hv2 : basename v.pathname ≠ "")
    (hw : w.pathname = "/" ∨ basename w.pathname = "") :
    guessFilename (.obj (some p)) = .ok (some (basename p)) ∧
    guessFilename (.file nm c) = .ok (some nm) ∧
    guessFilename (.bytes b) = .ok none ∧
    guessFilename (.iterable cs) = .ok none ∧
    guessFilename (.blob c) = .ok none ∧
    guessFilename .lazy = .ok none ∧
    guessFilename (.obj none) = .ok none ∧
    guessFilename (.url v) = .ok (some (basename v.pathname)) ∧
    guessFilename (.url w) = .ok (some (basename w.hostname)) ∧
    construct (.obj none none none (some "a/b/report.csv")) none =
      .ok { fileData := .obj (some "a/b/report.csv"),
            name := some "report.csv", consumed := false } ∧
    construct (.obj none none (some "https://example.com/") none) none =
      .ok { fileData := .url ⟨"https:", "example.com", "/"⟩,
            name := some "example.com", consumed := false } := by
  refine ⟨rfl, rfl, rfl, rfl, rfl, rfl, rfl, ?_, ?_, by decide, by decide⟩
  · simp [guessFilename, urlFilename, hv1, hv2]
  · rcases hw with hw | hw
    · simp [guessFilename, urlFilename, hw]
    · by_cases hwp : w.pathname = "/"
      · simp [guessFilename, urlFilename, hwp]
      · simp [guessFilename, urlFilename, hwp, hw]

/-- Witness for C5 at the spec's URLs `https://example.com/data/x.bin` and
`https://example.com/`. -/
theorem guessFilename_precedence_witness :
    (URL.mk "https:" "example.com" "/data/x.bin").pathname ≠ "/" ∧
    basename (URL.mk "https:" "example.com" "/data/x.bin").pathname ≠ "" ∧
    ((URL.mk "https:" "example.com" "/").pathname = "/" ∨
      basename (URL.mk "https:" "example.com" "/").pathname = "") ∧
    guessFilename (.url ⟨"https:", "example.com", "/data/x.bin"⟩) =
      .ok (some (basename "/data/x.bin")) ∧
    guessFilename (.url ⟨"https:", "example.com", "/"⟩) =
      .ok (some (basename "example.com")) :=
  ⟨by decide, by decide, Or.inl rfl,
    (guessFilename_precedence "p" "n" [] [] []
      ⟨"https:", "example.com", "/data/x.bin"⟩ ⟨"https:", "example.com", "/"⟩
      (by decide) (by decide) (Or.inl rfl)).2.2.2.2.2.2.2.1,
    (guessFilename_precedence "p" "n" [] [] []
      ⟨"https:", "example.com", "/data/x.bin"⟩ ⟨"https:", "example.com", "/"⟩
      (by decide) (by decide) (Or.inl rfl)).2.2.2.2.2.2.2.2.1⟩

/-- Claim C9: for `{ base64: s }` with `s` non-empty and slash-free and no
explicit filename, the inferred name is the data URL's path component
`";base64," ++ s` — a name is present, not absent. -/
theorem base64_inferred_name (s : String) (h1 : s ≠ "")
    (h2 : '/' ∉ s.data) :
    construct (.obj (some s) none none none) none =
      .ok { fileData := .url ⟨"data:", "", ";base64," ++ s⟩,
            name := some (";base64," ++ s), consumed := false } := by
  have hns : '/' ∉ (";base64," ++ s).data := by
    rw [String.data_append]
    intro hmem
    rcases List.mem_append.mp hmem with hmem | hmem
    · exact absurd hmem (by decide)
    · exact h2 hmem
  have hne : (";base64," ++ s) ≠ "" := by
    intro hEq
    have hlen : (";base64," ++ s).data.length = 0 := by rw [hEq]; rfl
    rw [String.data_append, List.length_append] at hlen
    simp at hlen
  have hnp : (";base64," ++ s) ≠ "/" := by
    intro hEq
    have hlen : (";base64," ++ s).data.length = 1 := by rw [hEq]; rfl
    rw [String.data_append, List.length_append] at hlen
    simp at hlen
    omega
  have hb : basename (";base64," ++ s) = ";base64," ++ s :=
    basename_no_slash _ hns
  have hg : guessFilename (.url ⟨"data:", "", ";base64," ++ s⟩) =
      .ok (some (";base64," ++ s)) := by
    simp [guessFilename, urlFilename, hnp, hb, hne]
  have hp : preprocess (.obj (some s) none none none) =
      .ok (.url ⟨"data:", "", ";base64," ++ s⟩) := by
    simp [preprocess, hasBase64, parseURL_dataBase64]
  have hc : construct (.obj (some s) none none none) none =
      (guessFilename (.url ⟨"data:", "", ";base64," ++ s⟩) >>= fun name =>
        pure { fileData := .url ⟨"data:", "", ";base64," ++ s⟩, name := name,
               consumed := false }) := by
    unfold construct
    rw [hp]
    rfl
  rw [hc, hg, exceptBind_ok]
  rfl

/-- Witness for C9 at the concrete base64 payload `"QUJD"`. -/
theorem base64_inferred_name_witness :
    ("QUJD" : String) ≠ "" ∧ '/' ∉ ("QUJD" : String).data ∧
    construct (.obj (some "QUJD") none none none) none =
      .ok { fileData := .url ⟨"data:", "", ";base64,QUJD"⟩,
            name := some ";base64,QUJD", consumed := false } :=
  ⟨by decide, by decide,
    base64_inferred_name "QUJD" (by decide) (by decide)⟩

end InputFileSpec
